import Mathlib

/-!
# Verification of the TOS upload service core

A shallow embedding, in Lean 4, of the upload orchestration and validation
core of the `ToSService` repository (`app/tos_client.py`,
`app/routers/upload.py`, `app/routers/health.py`), together with theorems
settling the frozen behavioural claims about it.

Modelling conventions:
* Python `bytes` values are `List Nat` (each element a byte value).
* Python `str` values are `String`; Python slicing `s[:n]` is modelled by
  `strTake`, which acts on the underlying character list exactly as the
  slice does.
* Exception-based control flow becomes `Except`: the backend SDK's
  behaviour during one store call (return an output, raise a client error,
  raise a server error, raise anything else) is an explicit
  `BackendBehavior` parameter, and the service's own exception taxonomy
  from `app/exceptions.py` is the inductive `UploadError`.
* The two nondeterministic inputs of key generation (`uuid.uuid4().hex`
  and `datetime.now(timezone.utc)`) are explicit parameters (`uuidHex`,
  `UtcTime`).
* All functions are total: the Python sniffer and reachability check
  contain no raising operation (resp. catch every exception), which the
  embedding reflects by returning plain values.
-/

/-- Supported image formats (`app/models.py`, `class ImageFormat`). -/
inductive ImageFormat
  | jpeg
  | png
  | webp
deriving DecidableEq, Repr

/-- MIME type mapping (`TosClient.MIME_TYPES`); total over the enumeration,
so `MIME_TYPES.get(format, "application/octet-stream")` in the source always
hits the table. -/
def MIME_TYPES : ImageFormat → String
  | .jpeg => "image/jpeg"
  | .png => "image/png"
  | .webp => "image/webp"

/-- File extension mapping (`TosClient.EXTENSIONS`). -/
def EXTENSIONS : ImageFormat → String
  | .jpeg => ".jpg"
  | .png => ".png"
  | .webp => ".webp"

/-- Magic byte table (`TosClient.MAGIC_BYTES`), in source order:
JPEG `FF D8 FF`, PNG `89 50 4E 47` (`\x89PNG`), WEBP `52 49 46 46`
(`RIFF`). -/
def MAGIC_BYTES : List (List Nat × ImageFormat) :=
  [([0xff, 0xd8, 0xff], ImageFormat.jpeg),
   ([0x89, 0x50, 0x4e, 0x47], ImageFormat.png),
   ([0x52, 0x49, 0x46, 0x46], ImageFormat.webp)]

/-- The `WEBP` sub-chunk tag that the sniffer requires at bytes 8–11 of a
RIFF container. -/
def WEBP_TAG : List Nat := [0x57, 0x45, 0x42, 0x50]

/-- The loop body of `_validate_image_bytes_fast`: walk the magic table in
order; on a prefix match return the format, except that a WEBP (RIFF)
candidate additionally requires `len(data) >= 12 and data[8:12] == b'WEBP'`
and otherwise falls through to the next table entry. -/
def matchMagic (data : List Nat) : List (List Nat × ImageFormat) → Option ImageFormat
  | [] => none
  | (magic, fmt) :: rest =>
    if data.take magic.length = magic then
      match fmt with
      | .webp =>
        if 12 ≤ data.length ∧ (data.drop 8).take 4 = WEBP_TAG then
          some ImageFormat.webp
        else
          matchMagic data rest
      | .jpeg => some ImageFormat.jpeg
      | .png => some ImageFormat.png
    else
      matchMagic data rest

/-- `TosClient._validate_image_bytes_fast` (`app/tos_client.py`, lines
108–125): reject inputs shorter than 4 bytes, then scan the magic table.
Total, hence the source's guarantee that sniffing never raises. -/
def validate_image_bytes_fast (data : List Nat) : Option ImageFormat :=
  if data.length < 4 then none
  else matchMagic data MAGIC_BYTES

/-- Python slicing `s[:n]` on a string: take the first `n` characters. -/
def strTake (s : String) (n : Nat) : String :=
  String.mk (s.data.take n)

/-- One fixed-width zero-padded decimal field, least significant digit
last, exactly as `strftime` renders `%Y`/`%m`/`%d`/`%H`/`%M`/`%S`/`%f`
for the values a `datetime` can hold. -/
def padNum : Nat → Nat → String
  | 0, _ => ""
  | w + 1, n => padNum w (n / 10) ++ String.mk [Char.ofNat (48 + n % 10)]

/-- A UTC wall-clock instant, the data `datetime.now(timezone.utc)`
supplies to `strftime`. -/
structure UtcTime where
  year : Nat
  month : Nat
  day : Nat
  hour : Nat
  minute : Nat
  second : Nat
  microsecond : Nat
deriving DecidableEq, Repr

/-- `datetime.strftime("%Y%m%d_%H%M%S_%f")`: a 22-character string
`YYYYMMDD_HHMMSS_ffffff` with 6-digit microseconds. -/
def strftime_timestamp (t : UtcTime) : String :=
  padNum 4 t.year ++ padNum 2 t.month ++ padNum 2 t.day ++ "_" ++
  padNum 2 t.hour ++ padNum 2 t.minute ++ padNum 2 t.second ++ "_" ++
  padNum 6 t.microsecond

/-- `TosClient._generate_object_key` (`app/tos_client.py`, lines 102–106):
`f"{prefix}{unique_id}_{timestamp}{self.EXTENSIONS[format]}"` where
`timestamp` is the strftime string truncated by `[:20]` and `unique_id`
is `uuid.uuid4().hex[:12]`. -/
def generate_object_key (pfx : String) (format : ImageFormat)
    (uuidHex : String) (t : UtcTime) : String :=
  pfx ++ strTake uuidHex 12 ++ "_" ++ strTake (strftime_timestamp t) 20 ++
    EXTENSIONS format

/-- `TosClient._build_public_url`. -/
def build_public_url (publicDomain : String) (objectKey : String) : String :=
  "https://" ++ publicDomain ++ "/" ++ objectKey

/-- The service's exception taxonomy (`app/exceptions.py`): every failure a
core operation can surface is one of these classified errors; a raw
backend-SDK exception is not representable here, which embeds the
propagation policy's boundary. -/
inductive UploadError
  | invalidFileFormatError (message : String)
  | fileSizeExceededError (maxSizeMb : Nat)
  | base64DecodeError (message : String)
  | tosUploadError (message : String)
deriving DecidableEq, Repr

/-- Drop everything up to and including the first comma; `none` when the
string has no comma. Models `base64_data.find(',')` followed by the slice
`base64_data[comma_idx + 1:]`. -/
def dropThroughComma : List Char → Option (List Char)
  | [] => none
  | c :: rest => if c = ',' then some rest else dropThroughComma rest

/-- The data-URL stripping step of `decode_base64_image_fast`: when a comma
is present, keep only what follows the first one; otherwise keep the whole
string. -/
def stripDataUrl (s : List Char) : List Char :=
  match dropThroughComma s with
  | some rest => rest
  | none => s

/-- Value of one base64 alphabet character (`A`–`Z`, `a`–`z`, `0`–`9`,
`+`, `/`); `none` for anything else, which strict decoding rejects. -/
def b64Val (c : Char) : Option Nat :=
  if 'A' ≤ c ∧ c ≤ 'Z' then some (c.toNat - 65)
  else if 'a' ≤ c ∧ c ≤ 'z' then some (c.toNat - 97 + 26)
  else if '0' ≤ c ∧ c ≤ '9' then some (c.toNat - 48 + 52)
  else if c = '+' then some 62
  else if c = '/' then some 63
  else none

/-- Strict base64 decoding, the behaviour of
`base64.b64decode(data, validate=True)`: the input must consist of
four-character groups over the base64 alphabet, with `=` padding allowed
only at the very end; any other input is rejected (`none`), never silently
truncated. -/
def b64decodeStrict : List Char → Option (List Nat)
  | [] => some []
  | c1 :: c2 :: c3 :: c4 :: rest =>
    match b64Val c1, b64Val c2 with
    | some v1, some v2 =>
      if c3 = '=' then
        if c4 = '=' ∧ rest = [] then some [v1 * 4 + v2 / 16] else none
      else
        match b64Val c3 with
        | some v3 =>
          if c4 = '=' then
            if rest = [] then some [v1 * 4 + v2 / 16, v2 % 16 * 16 + v3 / 4]
            else none
          else
            match b64Val c4 with
            | some v4 =>
              (b64decodeStrict rest).map
                (fun bs => (v1 * 4 + v2 / 16) :: (v2 % 16 * 16 + v3 / 4) ::
                  (v3 % 4 * 64 + v4) :: bs)
            | none => none
        | none => none
    | _, _ => none
  | _ => none

/-- `TosClient.decode_base64_image_fast` (`app/tos_client.py`, lines
131–149): strip an optional data-URL marker up to and including the first
comma, then decode the remainder strictly; any decoding failure is
classified as `Base64DecodeError`. -/
def decode_base64_image_fast (base64_data : String) : Except UploadError (List Nat) :=
  match b64decodeStrict (stripDataUrl base64_data.data) with
  | some bytes => Except.ok bytes
  | none => Except.error (UploadError.base64DecodeError "Failed to decode Base64 data")

/-- What the backend SDK's `put_object` call does during one store
operation: return an output carrying an ETag, raise `TosClientError`,
raise `TosServerError`, or raise any other exception. -/
inductive BackendBehavior
  | ok (etag : String)
  | clientError (message : String)
  | serverError (message : String)
  | unexpected (message : String)
deriving DecidableEq, Repr

/-- `true` exactly when the backend store call raises (any of the three
fault arms of `BackendBehavior`). -/
def BackendBehavior.isFault : BackendBehavior → Bool
  | .ok _ => false
  | _ => true

/-- `app/models.py`, `class UploadResult`: the immutable record a
successful upload returns. -/
structure UploadResult where
  public_url : String
  object_key : String
  etag : String
  size_bytes : Nat
  content_type : String
  upload_time : UtcTime
deriving DecidableEq, Repr

/-- The part of `upload_bytes_async` after validation (`app/tos_client.py`,
lines 191–220): generate the object key, look up the content type from the
caller-declared format, run the store call, and either build the
`UploadResult` or classify the backend fault as `TosUploadError`. The two
clock reads of the source (key generation, result timestamp) are modelled
by the single instant `t`. -/
def upload_after_validation (backend : BackendBehavior) (uuidHex : String)
    (t : UtcTime) (publicDomain : String) (data : List Nat)
    (format : ImageFormat) (pfx : String) : Except UploadError UploadResult :=
  let object_key := generate_object_key pfx format uuidHex t
  let content_type := MIME_TYPES format
  match backend with
  | .ok etag =>
    Except.ok
      { public_url := build_public_url publicDomain object_key
        object_key := object_key
        etag := etag
        size_bytes := data.length
        content_type := content_type
        upload_time := t }
  | .clientError m =>
    Except.error (UploadError.tosUploadError ("TOS client error: " ++ m))
  | .serverError m =>
    Except.error (UploadError.tosUploadError ("TOS server error: " ++ m))
  | .unexpected m =>
    Except.error (UploadError.tosUploadError ("Unexpected error during upload: " ++ m))

/-- `TosClient.upload_bytes_async` (`app/tos_client.py`, lines 166–220):
when `validate` is set, sniff the bytes and fail with
`InvalidFileFormatError` if no format matches; otherwise proceed to the
store call. -/
def upload_bytes_async (backend : BackendBehavior) (uuidHex : String)
    (t : UtcTime) (publicDomain : String) (data : List Nat)
    (format : ImageFormat) (pfx : String) (validate : Bool) :
    Except UploadError UploadResult :=
  if validate then
    match validate_image_bytes_fast data with
    | none =>
      Except.error (UploadError.invalidFileFormatError
        "Unable to detect valid image format from file content")
    | some _ => upload_after_validation backend uuidHex t publicDomain data format pfx
  else
    upload_after_validation backend uuidHex t publicDomain data format pfx

/-- `TosClient.upload_base64_async` (`app/tos_client.py`, lines 222–245):
decode the base64 payload, then upload the bytes with validation on (the
source passes no `validate` argument, so the default `True` applies). -/
def upload_base64_async (backend : BackendBehavior) (uuidHex : String)
    (t : UtcTime) (publicDomain : String) (base64_data : String)
    (format : ImageFormat) (pfx : String) : Except UploadError UploadResult :=
  match decode_base64_image_fast base64_data with
  | Except.error e => Except.error e
  | Except.ok bytes =>
    upload_bytes_async backend uuidHex t publicDomain bytes format pfx true

/-- `app/models.py`, `class Base64UploadRequest`: payload, declared format,
destination path, inert quality hint. -/
structure Base64UploadRequest where
  image_base64 : String
  format : ImageFormat
  pfx : String
  quality : Nat
deriving DecidableEq, Repr

/-- The per-item environment a single upload consumes: the backend's
behaviour for that item's store call and the item's random id and clock
reading. -/
structure ItemEnv where
  backend : BackendBehavior
  uuidHex : String
  time : UtcTime

/-- The base64 size bound of the routers (`app/routers/upload.py`, line
57 and line 157): `max_file_size_mb * 1024 * 1024 * 4 // 3`, integer
division. -/
def max_base64_size (maxFileSizeMb : Nat) : Nat :=
  maxFileSizeMb * 1024 * 1024 * 4 / 3

/-- One batch item's upload through the Upload Bridge
(`tos_client.upload_base64_async` as called from `upload_batch`). -/
def batch_item_upload (publicDomain : String) (env : ItemEnv)
    (req : Base64UploadRequest) : Except UploadError UploadResult :=
  upload_base64_async env.backend env.uuidHex env.time publicDomain
    req.image_base64 req.format req.pfx

/-- One batch item's whole per-item pipeline: the router's per-item size
gate (`if len(req.image_base64) > max_base64_size`) followed by the item's
upload. This is the classified per-item outcome the batch claim quantifies
over. -/
def batch_process_item (maxFileSizeMb : Nat) (publicDomain : String)
    (env : ItemEnv) (req : Base64UploadRequest) : Except UploadError UploadResult :=
  if max_base64_size maxFileSizeMb < req.image_base64.length then
    Except.error (UploadError.fileSizeExceededError maxFileSizeMb)
  else
    batch_item_upload publicDomain env req

/-- The aggregate wait of `asyncio.gather(*tasks)` at the result level:
one result per task in input order when all succeed, the failing task's
exception for the whole call otherwise. Modelled by folding the items in
input order, `i` being the index of the head item. -/
def gatherUploads (f : Nat → Base64UploadRequest → Except UploadError UploadResult) :
    Nat → List Base64UploadRequest → Except UploadError (List UploadResult)
  | _, [] => Except.ok []
  | i, r :: rest =>
    match f i r with
    | Except.error e => Except.error e
    | Except.ok x =>
      match gatherUploads f (i + 1) rest with
      | Except.error e => Except.error e
      | Except.ok xs => Except.ok (x :: xs)

/-- `upload_batch` (`app/routers/upload.py`, lines 141–183): reject
batches of more than 10 items as `InvalidFileFormatError`; check every
item's encoded size before starting any upload, failing with
`FileSizeExceededError`; then run one upload per item and aggregate. -/
def upload_batch (maxFileSizeMb : Nat) (publicDomain : String)
    (env : Nat → ItemEnv) (requests : List Base64UploadRequest) :
    Except UploadError (List UploadResult) :=
  if 10 < requests.length then
    Except.error (UploadError.invalidFileFormatError "Maximum 10 images per batch upload")
  else if requests.any (fun r => max_base64_size maxFileSizeMb < r.image_base64.length) then
    Except.error (UploadError.fileSizeExceededError maxFileSizeMb)
  else
    gatherUploads (fun i r => batch_item_upload publicDomain (env i) r) 0 requests

/-- Observable side effects of the base64 endpoint that the size-bound
claim talks about: attempting the base64 decode, and reaching the backend
store call. -/
inductive Effect
  | decodeAttempt
  | storeCall
deriving DecidableEq, Repr

/-- `upload_base64` (`app/routers/upload.py`, lines 41–74): the early
size check on the still-encoded payload, then decode, then upload. The
second component records which effects the execution performed, in order:
the decode attempt happens after the size gate, and the store call is
reached only when decoding and validation both succeed. -/
def upload_base64_endpoint (maxFileSizeMb : Nat) (publicDomain : String)
    (env : ItemEnv) (req : Base64UploadRequest) :
    Except UploadError UploadResult × List Effect :=
  if max_base64_size maxFileSizeMb < req.image_base64.length then
    (Except.error (UploadError.fileSizeExceededError maxFileSizeMb), [])
  else
    match decode_base64_image_fast req.image_base64 with
    | Except.error e => (Except.error e, [Effect.decodeAttempt])
    | Except.ok bytes =>
      (upload_bytes_async env.backend env.uuidHex env.time publicDomain bytes
        req.format req.pfx true,
       if validate_image_bytes_fast bytes = none then [Effect.decodeAttempt]
       else [Effect.decodeAttempt, Effect.storeCall])

/-- `TosClient.check_connection` (`app/tos_client.py`, lines 292–298):
`head_bucket` succeeding yields `true`; any exception is caught and
yields `false`. The probe's outcome is the explicit `Except` argument. -/
def check_connection (probe : Except String Unit) : Bool :=
  match probe with
  | Except.ok _ => true
  | Except.error _ => false

/-- `TosClient.check_connection_async` (`app/tos_client.py`, lines
300–311): same outcome as `check_connection`, with the blocking call
dispatched to the worker pool. -/
def check_connection_async (probe : Except String Unit) : Bool :=
  match probe with
  | Except.ok _ => true
  | Except.error _ => false

/-- `HEALTH_CACHE_TTL` (`app/routers/health.py`, line 18), in abstract
time units. -/
def HEALTH_CACHE_TTL : Nat := 30

/-- The cache read-check-then-write of `health_check`
(`app/routers/health.py`, lines 36–45) for the single key
`"tos_connection"`. Input: the value a fresh backend probe would return,
the current event-loop time, and the stored entry (if any). Output:
the reported reachability, the cache entry afterwards, and whether a
backend probe was issued. -/
def health_check_cache_step (probe : Bool) (now : Nat)
    (cache : Option (Bool × Nat)) : Bool × Option (Bool × Nat) × Bool :=
  match cache with
  | some (v, t0) =>
    if now - t0 < HEALTH_CACHE_TTL then (v, some (v, t0), false)
    else (probe, some (probe, now), true)
  | none => (probe, some (probe, now), true)

/-- `app/models.py`, `class HealthResponse` (the timestamp field is the
response-build clock read). -/
structure HealthResponse where
  status : String
  service : String
  version : String
  tos_connection : String
  timestamp : UtcTime
deriving DecidableEq, Repr

/-- `health_check` (`app/routers/health.py`, lines 21–55): resolve the
reachability boolean through the TTL cache, then build the response with
the constant top-level status `"healthy"` and `tos_connection` set to
`"ok"` or `"error"` from the resolved boolean. -/
def health_check (appName appVersion : String) (probe : Bool) (now : Nat)
    (ts : UtcTime) (cache : Option (Bool × Nat)) :
    HealthResponse × Option (Bool × Nat) :=
  let step := health_check_cache_step probe now cache
  ({ status := "healthy"
     service := appName
     version := appVersion
     tos_connection := if step.1 then "ok" else "error"
     timestamp := ts },
   step.2.1)

/-- Concrete environment for witness instances: a succeeding backend store
call, a 32-hex-character random token, a fixed instant. -/
def env0 : ItemEnv :=
  ⟨BackendBehavior.ok "etag-1", "0123456789abcdef0123456789abcdef",
   ⟨2026, 1, 2, 3, 4, 5, 6⟩⟩

/-- Concrete request for witness instances: `/9j/4A==` decodes to the four
bytes `FF D8 FF E0`, a sniffable JPEG prefix. -/
def req0 : Base64UploadRequest :=
  ⟨"/9j/4A==", ImageFormat.jpeg, "generated/", 90⟩

lemma length_ge_of_take_eq {α} {l m : List α} {n : Nat} (h : l.take n = m)
    (hm : m.length = n) : n ≤ l.length := by
  have hc := congrArg List.length h
  rw [List.length_take, hm] at hc
  omega

/-- C3. The sniffer returns no match below 4 bytes; identifies JPEG, PNG
and tagged RIFF/WEBP prefixes on inputs long enough to pass the length
guard; and rejects RIFF containers without the `WEBP` tag at offset 8 (or
shorter than 12 bytes). The JPEG clause carries the length-guard
hypothesis `4 ≤ d.length` that the claim as stated omits; sniffing never
raises, which the embedding states by `validate_image_bytes_fast` being a
total function into `Option ImageFormat`. -/
theorem tl_C3_amended :
    (∀ d : List Nat, d.length < 4 → validate_image_bytes_fast d = none) ∧
    (∀ d : List Nat, 4 ≤ d.length → d.take 3 = [0xff, 0xd8, 0xff] →
      validate_image_bytes_fast d = some ImageFormat.jpeg) ∧
    (∀ d : List Nat, d.take 4 = [0x89, 0x50, 0x4e, 0x47] →
      validate_image_bytes_fast d = some ImageFormat.png) ∧
    (∀ d : List Nat, 12 ≤ d.length → d.take 4 = [0x52, 0x49, 0x46, 0x46] →
      (d.drop 8).take 4 = WEBP_TAG →
      validate_image_bytes_fast d = some ImageFormat.webp) ∧
    (∀ d : List Nat, d.take 4 = [0x52, 0x49, 0x46, 0x46] →
      ((d.drop 8).take 4 ≠ WEBP_TAG ∨ d.length < 12) →
      validate_image_bytes_fast d = none) := by
  refine ⟨?_, ?_, ?_, ?_, ?_⟩
  · intro d h
    simp [validate_image_bytes_fast, h]
  · intro d h4 h3
    rw [validate_image_bytes_fast, if_neg (by omega)]
    simp [matchMagic, MAGIC_BYTES, h3]
  · intro d h4
    have hlen : 4 ≤ d.length := length_ge_of_take_eq h4 (by decide)
    have h3 : d.take 3 = [0x89, 0x50, 0x4e] := by
      have : d.take 3 = (d.take 4).take 3 := by
        rw [List.take_take]
        norm_num
      rw [this, h4]
      decide
    rw [validate_image_bytes_fast, if_neg (by omega)]
    simp [matchMagic, MAGIC_BYTES, h3, h4]
  · intro d h12 h4 htag
    have h3 : d.take 3 = [0x52, 0x49, 0x46] := by
      have : d.take 3 = (d.take 4).take 3 := by
        rw [List.take_take]
        norm_num
      rw [this, h4]
      decide
    rw [validate_image_bytes_fast, if_neg (by omega)]
    simp [matchMagic, MAGIC_BYTES, h3, h4, htag, h12]
  · intro d h4 hbad
    have hlen : 4 ≤ d.length := length_ge_of_take_eq h4 (by decide)
    have h3 : d.take 3 = [0x52, 0x49, 0x46] := by
      have : d.take 3 = (d.take 4).take 3 := by
        rw [List.take_take]
        norm_num
      rw [this, h4]
      decide
    have hcond : ¬(12 ≤ d.length ∧ (d.drop 8).take 4 = WEBP_TAG) := by
      rcases hbad with h | h
      · exact fun hc => h hc.2
      · exact fun hc => by omega
    rw [validate_image_bytes_fast, if_neg (by omega)]
    simp [matchMagic, MAGIC_BYTES, h3, h4, hcond]

/-- C3, counterexample to the claim as stated: the three-byte input
`FF D8 FF` has the JPEG signature as its first three bytes, yet the
sniffer returns no match, because the length guard rejects every input
shorter than 4 bytes first. -/
theorem tl_C3_counterexample :
    ([0xff, 0xd8, 0xff] : List Nat).take 3 = [0xff, 0xd8, 0xff] ∧
    validate_image_bytes_fast [0xff, 0xd8, 0xff] = none := by
  exact ⟨by decide, by decide⟩

/-- C3, witness: the amended JPEG clause applied to the concrete 4-byte
input `FF D8 FF E0`. -/
theorem tl_C3_amended_witness :
    4 ≤ ([0xff, 0xd8, 0xff, 0xe0] : List Nat).length ∧
    ([0xff, 0xd8, 0xff, 0xe0] : List Nat).take 3 = [0xff, 0xd8, 0xff] ∧
    validate_image_bytes_fast [0xff, 0xd8, 0xff, 0xe0] = some ImageFormat.jpeg :=
  ⟨by decide, by decide, tl_C3_amended.2.1 [0xff, 0xd8, 0xff, 0xe0] (by decide) (by decide)⟩

/-- C2. Every run of `upload_bytes_async` either returns a successful
`UploadResult` (the backend store call did not fault), or fails with the
`InvalidFileFormatError` raised exactly when validation is on and sniffing
finds no match, or fails with a `TosUploadError` classifying a backend
fault; the `Except UploadError` codomain leaves no arm for a raw
backend-SDK exception, and the `ok`/`error` split leaves no partial
result on failure. -/
theorem tl_C2 (backend : BackendBehavior) (uuidHex : String) (t : UtcTime)
    (publicDomain : String) (data : List Nat) (format : ImageFormat)
    (pfx : String) (validate : Bool) :
    (∃ r, upload_bytes_async backend uuidHex t publicDomain data format pfx validate =
        Except.ok r ∧ backend.isFault = false) ∨
    (upload_bytes_async backend uuidHex t publicDomain data format pfx validate =
        Except.error (UploadError.invalidFileFormatError
          "Unable to detect valid image format from file content") ∧
      validate = true ∧ validate_image_bytes_fast data = none) ∨
    (∃ m, upload_bytes_async backend uuidHex t publicDomain data format pfx validate =
        Except.error (UploadError.tosUploadError m) ∧ backend.isFault = true) := by
  rw [upload_bytes_async]
  cases validate with
  | false =>
    rw [if_neg (by simp)]
    cases backend with
    | ok e => exact Or.inl ⟨_, rfl, rfl⟩
    | clientError m => exact Or.inr (Or.inr ⟨_, rfl, rfl⟩)
    | serverError m => exact Or.inr (Or.inr ⟨_, rfl, rfl⟩)
    | unexpected m => exact Or.inr (Or.inr ⟨_, rfl, rfl⟩)
  | true =>
    rw [if_pos rfl]
    cases hd : validate_image_bytes_fast data with
    | none => exact Or.inr (Or.inl ⟨rfl, rfl, rfl⟩)
    | some g =>
      cases backend with
      | ok e => exact Or.inl ⟨_, rfl, rfl⟩
      | clientError m => exact Or.inr (Or.inr ⟨_, rfl, rfl⟩)
      | serverError m => exact Or.inr (Or.inr ⟨_, rfl, rfl⟩)
      | unexpected m => exact Or.inr (Or.inr ⟨_, rfl, rfl⟩)

/-- C1, counterexample to the claim as stated: bytes carrying the PNG
signature, uploaded with caller-declared format JPEG and `validate=true`,
are sniffed as PNG yet stored with content type `image/jpeg` and an object
key ending `.jpg` — the sniffed result overrides nothing. -/
theorem tl_C1_counterexample :
    validate_image_bytes_fast [0x89, 0x50, 0x4e, 0x47] = some ImageFormat.png ∧
    upload_bytes_async (BackendBehavior.ok "etag-1")
        "0123456789abcdef0123456789abcdef" ⟨2026, 1, 2, 3, 4, 5, 6⟩
        "cdn.example.com" [0x89, 0x50, 0x4e, 0x47] ImageFormat.jpeg
        "generated/" true =
      Except.ok
        { public_url := "https://cdn.example.com/generated/0123456789ab_20260102_030405_0000.jpg"
          object_key := "generated/0123456789ab_20260102_030405_0000.jpg"
          etag := "etag-1"
          size_bytes := 4
          content_type := "image/jpeg"
          upload_time := ⟨2026, 1, 2, 3, 4, 5, 6⟩ } ∧
    "image/jpeg" ≠ MIME_TYPES ImageFormat.png ∧
    "generated/0123456789ab_20260102_030405_0000.jpg" =
      "generated/0123456789ab_20260102_030405_0000" ++ EXTENSIONS ImageFormat.jpeg ∧
    EXTENSIONS ImageFormat.jpeg ≠ EXTENSIONS ImageFormat.png := by
  refine ⟨by decide, rfl, by decide, by decide, by decide⟩

/-- C1, amended: with `validate=true` and the sniffer identifying some
supported format, the sniffed result acts only as an accept gate — the
returned `UploadResult`'s content type and the object key's extension are
always those of the caller-declared format, whether or not it agrees with
the sniffed one. -/
theorem tl_C1_amended (backend : BackendBehavior) (uuidHex : String)
    (t : UtcTime) (publicDomain : String) (data : List Nat)
    (format : ImageFormat) (pfx : String) (g : ImageFormat)
    (hdet : validate_image_bytes_fast data = some g) (r : UploadResult)
    (hok : upload_bytes_async backend uuidHex t publicDomain data format pfx true =
      Except.ok r) :
    r.content_type = MIME_TYPES format ∧
    ∃ stem, r.object_key = stem ++ EXTENSIONS format := by
  rw [upload_bytes_async, if_pos rfl, hdet] at hok
  cases backend with
  | ok e =>
    cases hok
    exact ⟨rfl, ⟨_, rfl⟩⟩
  | clientError m => exact absurd hok (by simp [upload_after_validation])
  | serverError m => exact absurd hok (by simp [upload_after_validation])
  | unexpected m => exact absurd hok (by simp [upload_after_validation])

/-- C1, witness: the amended statement applied to the PNG-signature bytes
declared as JPEG. -/
theorem tl_C1_amended_witness :
    ∃ r, validate_image_bytes_fast [0x89, 0x50, 0x4e, 0x47] = some ImageFormat.png ∧
      upload_bytes_async (BackendBehavior.ok "etag-1")
          "0123456789abcdef0123456789abcdef" ⟨2026, 1, 2, 3, 4, 5, 6⟩
          "cdn.example.com" [0x89, 0x50, 0x4e, 0x47] ImageFormat.jpeg
          "generated/" true = Except.ok r ∧
      r.content_type = MIME_TYPES ImageFormat.jpeg ∧
      (∃ stem, r.object_key = stem ++ EXTENSIONS ImageFormat.jpeg) :=
  ⟨_, by decide, rfl,
    tl_C1_amended (BackendBehavior.ok "etag-1")
      "0123456789abcdef0123456789abcdef" ⟨2026, 1, 2, 3, 4, 5, 6⟩
      "cdn.example.com" [0x89, 0x50, 0x4e, 0x47] ImageFormat.jpeg
      "generated/" ImageFormat.png (by decide) _ rfl⟩

lemma padNum_length (w n : Nat) : (padNum w n).length = w := by
  induction w generalizing n with
  | zero => rfl
  | succ k ih => simp [padNum, String.length_append, ih]

lemma strTake_length (s : String) (n : Nat) : (strTake s n).length = min n s.length := by
  show (s.data.take n).length = min n s.data.length
  exact List.length_take n s.data

lemma strftime_timestamp_length (t : UtcTime) : (strftime_timestamp t).length = 22 := by
  simp only [strftime_timestamp, String.length_append, padNum_length]
  decide

/-- C7, counterexample to the claim as stated: two instants in the same
second differing only in their microsecond fields (123456 µs vs 123400 µs)
produce identical object keys even with the same random token, because the
source truncates the 22-character `%Y%m%d_%H%M%S_%f` rendering to 20
characters, dropping the last two microsecond digits — the embedded
timestamp does not have microsecond precision. -/
theorem tl_C7_counterexample :
    generate_object_key "generated/" ImageFormat.jpeg
        "0123456789abcdef0123456789abcdef" ⟨2026, 10, 12, 1, 2, 3, 123456⟩ =
      generate_object_key "generated/" ImageFormat.jpeg
        "0123456789abcdef0123456789abcdef" ⟨2026, 10, 12, 1, 2, 3, 123400⟩ ∧
    (⟨2026, 10, 12, 1, 2, 3, 123456⟩ : UtcTime).microsecond ≠
      (⟨2026, 10, 12, 1, 2, 3, 123400⟩ : UtcTime).microsecond := by
  exact ⟨by decide, by decide⟩

/-- The hexadecimal alphabet of `uuid.uuid4().hex`. -/
def isHexChar (c : Char) : Bool :=
  ('0' ≤ c && c ≤ '9') || ('a' ≤ c && c ≤ 'f')

/-- C7, amended: every generated key has the shape
`{prefix}{unique_id}_{timestamp}{extension}` — it starts with the given
prefix, `unique_id` is the 12-hex-character head of the random token, and
the key ends with the extension of the requested format — but the
timestamp is the 22-character microsecond rendering truncated to its
first 20 characters, so it carries only the first four microsecond digits
(100 µs resolution), not full microsecond precision. -/
theorem tl_C7_amended (pfx : String) (format : ImageFormat)
    (uuidHex : String) (t : UtcTime) (hlen : 12 ≤ uuidHex.length)
    (hhex : ∀ c ∈ uuidHex.data, isHexChar c = true) :
    ∃ id ts,
      generate_object_key pfx format uuidHex t = pfx ++ id ++ "_" ++ ts ++ EXTENSIONS format ∧
      id.length = 12 ∧ (∀ c ∈ id.data, isHexChar c = true) ∧
      ts = strTake (strftime_timestamp t) 20 ∧ ts.length = 20 := by
  refine ⟨strTake uuidHex 12, strTake (strftime_timestamp t) 20, rfl, ?_, ?_, rfl, ?_⟩
  · rw [strTake_length]
    omega
  · intro c hc
    exact hhex c (List.take_subset 12 uuidHex.data hc)
  · rw [strTake_length, strftime_timestamp_length]
    decide

/-- C7, witness: the amended shape at a concrete prefix, format, token and
instant. -/
theorem tl_C7_amended_witness :
    12 ≤ ("0123456789abcdef0123456789abcdef" : String).length ∧
    (∀ c ∈ ("0123456789abcdef0123456789abcdef" : String).data, isHexChar c = true) ∧
    ∃ id ts,
      generate_object_key "generated/" ImageFormat.png
          "0123456789abcdef0123456789abcdef" ⟨2026, 10, 12, 1, 2, 3, 123456⟩ =
        "generated/" ++ id ++ "_" ++ ts ++ EXTENSIONS ImageFormat.png ∧
      id.length = 12 ∧ (∀ c ∈ id.data, isHexChar c = true) ∧
      ts = strTake (strftime_timestamp ⟨2026, 10, 12, 1, 2, 3, 123456⟩) 20 ∧
      ts.length = 20 :=
  ⟨by decide, by decide,
    tl_C7_amended "generated/" ImageFormat.png
      "0123456789abcdef0123456789abcdef" ⟨2026, 10, 12, 1, 2, 3, 123456⟩
      (by decide) (by decide)⟩

lemma dropThroughComma_of_not_mem {l : List Char} (h : ',' ∉ l) :
    dropThroughComma l = none := by
  induction l with
  | nil => rfl
  | cons c rest ih =>
    have hcne : c ≠ ',' := fun hc => h (List.mem_cons.mpr (Or.inl hc.symm))
    rw [dropThroughComma, if_neg hcne]
    exact ih (fun hm => h (List.mem_cons_of_mem c hm))

lemma dropThroughComma_append {p rest : List Char} (h : ',' ∉ p) :
    dropThroughComma (p ++ ',' :: rest) = some rest := by
  induction p with
  | nil => simp [dropThroughComma]
  | cons c q ih =>
    have hcne : c ≠ ',' := fun hc => h (List.mem_cons.mpr (Or.inl hc.symm))
    rw [List.cons_append, dropThroughComma, if_neg hcne]
    exact ih (fun hm => h (List.mem_cons_of_mem c hm))

/-- C8. For a payload without a comma, decoding the data-URL-prefixed form
and the bare form yield the same outcome: the decoder strips everything up
to and including the first comma — which for the prefixed form is exactly
the marker `data:image/jpeg;base64,` — and then strictly decodes the same
remainder. -/
theorem tl_C8 (b : String) (h : ',' ∉ b.data) :
    decode_base64_image_fast ("data:image/jpeg;base64," ++ b) =
      decode_base64_image_fast b := by
  have hdata : ("data:image/jpeg;base64," ++ b).data =
      "data:image/jpeg;base64".data ++ ',' :: b.data := by
    rw [String.data_append]
    have : ("data:image/jpeg;base64," : String).data =
        "data:image/jpeg;base64".data ++ [','] := by decide
    rw [this, List.append_assoc]
    rfl
  have h1 : stripDataUrl ("data:image/jpeg;base64," ++ b).data = b.data := by
    rw [stripDataUrl, hdata, dropThroughComma_append (by decide)]
  have h2 : stripDataUrl b.data = b.data := by
    rw [stripDataUrl, dropThroughComma_of_not_mem h]
  rw [decode_base64_image_fast, decode_base64_image_fast, h1, h2]

/-- C8, witness: the stripping identity at the concrete comma-free payload
`aGVsbG8=`. -/
theorem tl_C8_witness :
    (',' ∉ ("aGVsbG8=" : String).data) ∧
    decode_base64_image_fast ("data:image/jpeg;base64," ++ "aGVsbG8=") =
      decode_base64_image_fast "aGVsbG8=" :=
  ⟨by decide, tl_C8 "aGVsbG8=" (by decide)⟩

/-- C9. The reachability check is a total function into `Bool` — its
Python source wraps the bucket probe in a bare `except Exception` — so it
never propagates a failure: a successful probe yields `true`, and every
fault, whatever its message, yields `false`, for both the synchronous and
the pool-dispatched variant. -/
theorem tl_C9 :
    check_connection (Except.ok ()) = true ∧
    check_connection_async (Except.ok ()) = true ∧
    ∀ m : String,
      check_connection (Except.error m) = false ∧
      check_connection_async (Except.error m) = false :=
  ⟨rfl, rfl, fun _ => ⟨rfl, rfl⟩⟩

/-- C10. The full health report's top-level `status` field is the constant
`"healthy"` for every probe outcome, cache state and clock reading; only
the `tos_connection` field reflects the cache-resolved reachability
boolean, as `"ok"` or `"error"`. -/
theorem tl_C10 (appName appVersion : String) (probe : Bool) (now : Nat)
    (ts : UtcTime) (cache : Option (Bool × Nat)) :
    (health_check appName appVersion probe now ts cache).1.status = "healthy" ∧
    (health_check appName appVersion probe now ts cache).1.tos_connection =
      (if (health_check_cache_step probe now cache).1 then "ok" else "error") :=
  ⟨rfl, rfl⟩

/-- C5. With an entry `(v, t0)` stored, two checks at `t1` and `t2` both
within the TTL window of `t0` issue no backend probe at all (hence at most
one between them), the second returning the cached boolean with the entry
untouched; and a check whose age `t - t0` exceeds the TTL issues a fresh
probe and overwrites the entry with `(result, now)` before returning. -/
theorem tl_C5 :
    (∀ (v p1 p2 : Bool) (t0 t1 t2 : Nat),
      t1 - t0 < HEALTH_CACHE_TTL → t2 - t0 < HEALTH_CACHE_TTL →
      health_check_cache_step p1 t1 (some (v, t0)) = (v, some (v, t0), false) ∧
      health_check_cache_step p2 t2
          (health_check_cache_step p1 t1 (some (v, t0))).2.1 =
        (v, some (v, t0), false)) ∧
    (∀ (v p : Bool) (t0 t : Nat), HEALTH_CACHE_TTL < t - t0 →
      health_check_cache_step p t (some (v, t0)) = (p, some (p, t), true)) := by
  constructor
  · intro v p1 p2 t0 t1 t2 h1 h2
    have e1 : health_check_cache_step p1 t1 (some (v, t0)) = (v, some (v, t0), false) := by
      rw [health_check_cache_step, if_pos h1]
    refine ⟨e1, ?_⟩
    rw [e1, health_check_cache_step, if_pos h2]
  · intro v p t0 t h
    rw [health_check_cache_step, if_neg (by omega)]

/-- C5, witness: a stored entry from time 0, cached reads at times 10 and
20, and a stale read at time 31 that re-probes and overwrites. -/
theorem tl_C5_witness :
    (health_check_cache_step true 10 (some (true, 0)) = (true, some (true, 0), false) ∧
      health_check_cache_step true 20
          (health_check_cache_step true 10 (some (true, 0))).2.1 =
        (true, some (true, 0), false)) ∧
    health_check_cache_step false 31 (some (true, 0)) = (false, some (false, 31), true) :=
  ⟨tl_C5.1 true true true 0 10 20 (by decide) (by decide),
    tl_C5.2 true false 0 31 (by decide)⟩

/-- C6. When the encoded payload's length exceeds
`max_file_size_mb * 1024 * 1024 * 4 // 3` — for an integer length this
floor bound is exceeded exactly when the claim's exact bound
`max_file_size_mb * 1024 * 1024 * 4/3` is — the endpoint fails with
`FileSizeExceededError` and performs no effect at all: the empty effect
trace records that neither a decode attempt nor a store call happened. -/
theorem tl_C6 (maxFileSizeMb : Nat) (publicDomain : String) (env : ItemEnv)
    (req : Base64UploadRequest)
    (h : max_base64_size maxFileSizeMb < req.image_base64.length) :
    upload_base64_endpoint maxFileSizeMb publicDomain env req =
      (Except.error (UploadError.fileSizeExceededError maxFileSizeMb), []) := by
  rw [upload_base64_endpoint, if_pos h]

/-- C6, witness: with a 0 MB bound, the concrete eight-character payload
trips the size gate before any decode. -/
theorem tl_C6_witness :
    max_base64_size 0 < (req0.image_base64).length ∧
    upload_base64_endpoint 0 "cdn.example.com" env0 req0 =
      (Except.error (UploadError.fileSizeExceededError 0), []) :=
  ⟨by decide, tl_C6 0 "cdn.example.com" env0 req0 (by decide)⟩

lemma gatherUploads_all_ok
    (f : Nat → Base64UploadRequest → Except UploadError UploadResult) :
    ∀ (start : Nat) (l : List Base64UploadRequest),
    (∀ i (h : i < l.length), ∃ r, f (start + i) (l.get ⟨i, h⟩) = Except.ok r) →
    ∃ rs, gatherUploads f start l = Except.ok rs ∧ rs.length = l.length ∧
      ∀ i (h : i < l.length) (h2 : i < rs.length),
        f (start + i) (l.get ⟨i, h⟩) = Except.ok (rs.get ⟨i, h2⟩) := by
  intro start l
  induction l generalizing start with
  | nil =>
    intro _
    exact ⟨[], rfl, rfl, fun i h => absurd h (by simp)⟩
  | cons r rest ih =>
    intro hall
    obtain ⟨x, hx⟩ := hall 0 (by simp)
    have hx0 : f start r = Except.ok x := hx
    obtain ⟨rs, hrs, hlen, hget⟩ := ih (start + 1) (fun i h => by
      obtain ⟨y, hy⟩ := hall (i + 1) (Nat.succ_lt_succ h)
      refine ⟨y, ?_⟩
      have harith : start + 1 + i = start + (i + 1) := by omega
      rw [harith]
      simpa using hy)
    refine ⟨x :: rs, ?_, by simp [hlen], ?_⟩
    · simp only [gatherUploads, hx0, hrs]
    · intro i h h2
      cases i with
      | zero => simpa using hx0
      | succ j =>
        have hj : j < rest.length := Nat.lt_of_succ_lt_succ h
        have hj2 : j < rs.length := Nat.lt_of_succ_lt_succ (by simpa using h2)
        have hstep := hget j hj hj2
        have harith : start + (j + 1) = start + 1 + j := by omega
        simpa [harith] using hstep

lemma gatherUploads_error
    (f : Nat → Base64UploadRequest → Except UploadError UploadResult) :
    ∀ (start : Nat) (l : List Base64UploadRequest),
    (∃ i, ∃ h : i < l.length, ∃ e, f (start + i) (l.get ⟨i, h⟩) = Except.error e) →
    ∃ e, gatherUploads f start l = Except.error e ∧
      ∃ j, ∃ h : j < l.length, f (start + j) (l.get ⟨j, h⟩) = Except.error e := by
  intro start l
  induction l generalizing start with
  | nil =>
    rintro ⟨i, h, -⟩
    exact absurd h (by simp)
  | cons r rest ih =>
    rintro ⟨i, h, e, he⟩
    cases hx : f start r with
    | error e0 =>
      refine ⟨e0, ?_, 0, by simp, hx⟩
      simp only [gatherUploads, hx]
    | ok x =>
      have htail : ∃ i2, ∃ h2 : i2 < rest.length, ∃ e2,
          f (start + 1 + i2) (rest.get ⟨i2, h2⟩) = Except.error e2 := by
        cases i with
        | zero =>
          have he0 : f start r = Except.error e := he
          rw [hx] at he0
          exact absurd he0 (by simp)
        | succ j =>
          have hj : j < rest.length := Nat.lt_of_succ_lt_succ h
          refine ⟨j, hj, e, ?_⟩
          have harith : start + 1 + j = start + (j + 1) := by omega
          rw [harith]
          simpa using he
      obtain ⟨e1, hg, j, hj, hfj⟩ := ih (start + 1) htail
      refine ⟨e1, ?_, j + 1, Nat.succ_lt_succ hj, ?_⟩
      · simp only [gatherUploads, hx, hg]
      · have harith : start + (j + 1) = start + 1 + j := by omega
        simpa [harith] using hfj

/-- C4. Batch upload is all-or-nothing for every batch of at most 10
requests: when every item's per-item pipeline (its size gate followed by
its upload) succeeds, the call returns exactly one `UploadResult` per
request, in input-order correspondence; when any item's pipeline fails,
the whole call fails with a failing item's classified error and surfaces
no result list at all. -/
theorem tl_C4 (maxFileSizeMb : Nat) (publicDomain : String)
    (env : Nat → ItemEnv) (requests : List Base64UploadRequest)
    (hlen : requests.length ≤ 10) :
    ((∀ i (h : i < requests.length), ∃ r,
        batch_process_item maxFileSizeMb publicDomain (env i) (requests.get ⟨i, h⟩) =
          Except.ok r) →
      ∃ rs, upload_batch maxFileSizeMb publicDomain env requests = Except.ok rs ∧
        rs.length = requests.length ∧
        ∀ i (h : i < requests.length) (h2 : i < rs.length),
          batch_process_item maxFileSizeMb publicDomain (env i) (requests.get ⟨i, h⟩) =
            Except.ok (rs.get ⟨i, h2⟩)) ∧
    ((∃ i, ∃ h : i < requests.length, ∃ e,
        batch_process_item maxFileSizeMb publicDomain (env i) (requests.get ⟨i, h⟩) =
          Except.error e) →
      ∃ e, upload_batch maxFileSizeMb publicDomain env requests = Except.error e ∧
        ∃ j, ∃ h : j < requests.length,
          batch_process_item maxFileSizeMb publicDomain (env j) (requests.get ⟨j, h⟩) =
            Except.error e) := by
  constructor
  · intro hall
    have hsz : ∀ i (h : i < requests.length),
        ¬ max_base64_size maxFileSizeMb < (requests.get ⟨i, h⟩).image_base64.length := by
      intro i h hbig
      obtain ⟨r, hr⟩ := hall i h
      rw [batch_process_item, if_pos hbig] at hr
      exact absurd hr (by simp)
    have hany : requests.any
        (fun r => max_base64_size maxFileSizeMb < r.image_base64.length) = false := by
      rw [List.any_eq_false]
      intro x hx
      obtain ⟨n, hn⟩ := List.mem_iff_get.mp hx
      have hfin : requests.get ⟨n.1, n.2⟩ = x := hn
      have := hsz n.1 n.2
      rw [hfin] at this
      simpa using this
    have hb : ∀ i (h : i < requests.length),
        batch_item_upload publicDomain (env i) (requests.get ⟨i, h⟩) =
          batch_process_item maxFileSizeMb publicDomain (env i) (requests.get ⟨i, h⟩) := by
      intro i h
      rw [batch_process_item, if_neg (hsz i h)]
    obtain ⟨rs, hg, hlen2, hget⟩ := gatherUploads_all_ok
      (fun i r => batch_item_upload publicDomain (env i) r) 0 requests
      (fun i h => by
        obtain ⟨r, hr⟩ := hall i h
        refine ⟨r, ?_⟩
        show batch_item_upload publicDomain (env (0 + i)) (requests.get ⟨i, h⟩) =
          Except.ok r
        rw [Nat.zero_add, hb i h]
        exact hr)
    refine ⟨rs, ?_, hlen2, ?_⟩
    · rw [upload_batch, if_neg (by omega : ¬ 10 < requests.length), hany]
      simpa using hg
    · intro i h h2
      have hstep : batch_item_upload publicDomain (env (0 + i)) (requests.get ⟨i, h⟩) =
          Except.ok (rs.get ⟨i, h2⟩) := hget i h h2
      rw [Nat.zero_add, hb i h] at hstep
      exact hstep
  · rintro ⟨i, h, e, he⟩
    by_cases hany : requests.any
        (fun r => max_base64_size maxFileSizeMb < r.image_base64.length) = true
    · obtain ⟨x, hxmem, hxbig⟩ := List.any_eq_true.mp hany
      obtain ⟨n, hn⟩ := List.mem_iff_get.mp hxmem
      have hfin : requests.get ⟨n.1, n.2⟩ = x := hn
      refine ⟨UploadError.fileSizeExceededError maxFileSizeMb, ?_, n.1, n.2, ?_⟩
      · rw [upload_batch, if_neg (by omega : ¬ 10 < requests.length)]
        simp [hany]
      · have hxbig2 : max_base64_size maxFileSizeMb < x.image_base64.length := by
          simpa using hxbig
        rw [batch_process_item, hfin, if_pos hxbig2]
    · have hanyf : requests.any
          (fun r => max_base64_size maxFileSizeMb < r.image_base64.length) = false := by
        revert hany
        cases requests.any
          (fun r => max_base64_size maxFileSizeMb < r.image_base64.length) <;> simp
      have hsz : ∀ i2 (h2 : i2 < requests.length),
          ¬ max_base64_size maxFileSizeMb < (requests.get ⟨i2, h2⟩).image_base64.length := by
        intro i2 h2 hbig
        exact hany (List.any_eq_true.mpr
          ⟨requests.get ⟨i2, h2⟩, List.get_mem _ _ _, by simpa using hbig⟩)
      have hb : ∀ i2 (h2 : i2 < requests.length),
          batch_item_upload publicDomain (env i2) (requests.get ⟨i2, h2⟩) =
            batch_process_item maxFileSizeMb publicDomain (env i2) (requests.get ⟨i2, h2⟩) := by
        intro i2 h2
        rw [batch_process_item, if_neg (hsz i2 h2)]
      have he2 : batch_item_upload publicDomain (env i) (requests.get ⟨i, h⟩) =
          Except.error e := by
        rw [hb i h]
        exact he
      obtain ⟨e1, hg, j, hj, hfj⟩ := gatherUploads_error
        (fun i2 r => batch_item_upload publicDomain (env i2) r) 0 requests
        ⟨i, h, e, by
          show batch_item_upload publicDomain (env (0 + i)) (requests.get ⟨i, h⟩) =
            Except.error e
          rw [Nat.zero_add]
          exact he2⟩
      refine ⟨e1, ?_, j, hj, ?_⟩
      · rw [upload_batch, if_neg (by omega : ¬ 10 < requests.length), hanyf]
        simpa using hg
      · have hfj2 : batch_item_upload publicDomain (env (0 + j)) (requests.get ⟨j, hj⟩) =
            Except.error e1 := hfj
        rw [Nat.zero_add, hb j hj] at hfj2
        exact hfj2

/-- C4, witness: a one-item batch with a succeeding backend returns
exactly one result, in position. -/
theorem tl_C4_witness :
    ([req0] : List Base64UploadRequest).length ≤ 10 ∧
    ∃ rs, upload_batch 10 "cdn.example.com" (fun _ => env0) [req0] = Except.ok rs ∧
      rs.length = ([req0] : List Base64UploadRequest).length ∧
      ∀ i (h : i < ([req0] : List Base64UploadRequest).length) (h2 : i < rs.length),
        batch_process_item 10 "cdn.example.com" ((fun _ => env0) i)
            (([req0] : List Base64UploadRequest).get ⟨i, h⟩) =
          Except.ok (rs.get ⟨i, h2⟩) :=
  ⟨by decide,
    (tl_C4 10 "cdn.example.com" (fun _ => env0) [req0] (by decide)).1
      (fun i h => by
        have h1 : i < 1 := by simpa using h
        have hi : i = 0 := by omega
        subst hi
        exact ⟨_, rfl⟩)⟩
